import Mathlib

/-!
Shallow embedding of `aamva2011.py`, a parser for AAMVA 2011 driver's
license magnetic-stripe data.  Python strings are modelled as Lean
`String`/`List Char`; the field dictionary is an association list with
Python `dict` semantics (insert replaces in place, otherwise appends);
exceptions are modelled by an explicit error type and `Except`.

The three track regexes are translated construct by construct into
backtracking matchers: a fixed-width group (`matchFixed`/`fixedGrp`) is
deterministic, a bounded greedy class repetition (`varGrp`/`tryGrp`)
tries the longest class-conforming prefix first and backtracks one
character at a time, and an optional literal (`optLit`) first tries to
consume the literal and falls back to the empty match, exactly as
Python's `re` backtracking does.  Every pattern ends in a literal `?`
followed by `.*`; since `.*` always succeeds and `re.match` does not
anchor the end, a match simply succeeds after the literal `?` (`endQ`).
-/

namespace AAMVA

/-- Exception outcomes of the Python code.  `parseError` is the module's
own `ParseError` with its message; `typeError` is the `TypeError` raised
by calling the non-callable `NotImplemented` singleton in
`parse_string`; `valueError` arises from tuple unpacking or `int()`;
`indexError` from indexing an empty string; `keyError` from a missing
dict key. -/
inductive PyErr where
  | parseError (msg : String)
  | typeError
  | valueError
  | indexError
  | keyError
deriving DecidableEq, Repr

/-- A Python dict from field names to raw string values, as an
association list with unique keys. -/
def Dict := List (String × String)
deriving DecidableEq, Repr

/-- `d[k]` lookup, `None` when absent. -/
def dlookup (d : Dict) (k : String) : Option String :=
  match d with
  | [] => none
  | (k', v) :: rest => if k' = k then some v else dlookup rest k

/-- `d[k] = v`: replace in place when the key is present, append
otherwise (Python dict insertion-order semantics). -/
def dinsert (d : Dict) (k : String) (v : String) : Dict :=
  match d with
  | [] => [(k, v)]
  | (k', v') :: rest => if k' = k then (k, v) :: rest else (k', v') :: dinsert rest k v

/-- `del d[k]`. -/
def derase (d : Dict) (k : String) : Dict :=
  match d with
  | [] => []
  | (k', v') :: rest => if k' = k then rest else (k', v') :: derase rest k

/-- `d.update(caps)`: fold the captured pairs into the dict. -/
def updateCaps (d : Dict) (caps : Dict) : Dict :=
  caps.foldl (fun acc kv => dinsert acc kv.1 kv.2) d

/-- Python `s[a:b]` with non-negative clamped indices. -/
def pySlice (s : String) (a b : Nat) : String :=
  String.mk ((s.data.drop a).take (b - a))

/-- Python `s[a:]`. -/
def pySliceFrom (s : String) (a : Nat) : String :=
  String.mk (s.data.drop a)

/-- Python `int(s)` on the strings the decoder feeds it: surrounding
spaces stripped, then a non-empty run of decimal digits; anything else
is a `ValueError` (`none`). -/
def pyInt (s : String) : Option Nat :=
  let t := ((s.data.dropWhile (fun c => c == ' ')).reverse.dropWhile
    (fun c => c == ' ')).reverse
  if t.isEmpty then none
  else if t.all Char.isDigit then
    some (t.foldl (fun a c => 10 * a + (c.toNat - '0'.toNat)) 0)
  else none

/-- Numeric value of a decimal digit character. -/
def digitVal (c : Char) : Nat := c.toNat - '0'.toNat

/-! ## Regex building blocks -/

/-- Length of the longest prefix of `l` whose characters satisfy `p`,
capped at `hi` (the greedy first try of a `{lo,hi}` repetition). -/
def maxTake (p : Char → Bool) : Nat → List Char → Nat
  | _, [] => 0
  | 0, _ => 0
  | n + 1, c :: rest => if p c then maxTake p n rest + 1 else 0

/-- Match a fixed-width group given per-position character predicates;
returns the consumed characters and the remaining input. -/
def matchFixed (ps : List (Char → Bool)) (input : List Char) : Option (List Char × List Char) :=
  match ps, input with
  | [], rest => some ([], rest)
  | _ :: _, [] => none
  | p :: ps', c :: rest =>
    if p c then
      match matchFixed ps' rest with
      | some (cs, r) => some (c :: cs, r)
      | none => none
    else none

/-- The tail `\?.*` of each track pattern: a literal `?`, after which
the match succeeds whatever follows. -/
def endQ : List Char → Option Dict
  | '?' :: _ => some []
  | _ => none

/-- Greedy optional literal (`c?`): try consuming `c` first, fall back
to the empty match if the rest of the pattern then fails. -/
def optLit (c : Char) (cont : List Char → Option Dict) (input : List Char) : Option Dict :=
  match input with
  | x :: rest =>
    if x = c then
      match cont rest with
      | some caps => some caps
      | none => cont input
    else cont input
  | [] => cont []

/-- Backtracking loop of a greedy class repetition: try capturing `k`
characters, retry with one fewer on failure, fail below `lo`. -/
def tryGrp (nm : String) (lo : Nat) (cont : List Char → Option Dict) (input : List Char) :
    Nat → Option Dict
  | 0 =>
    if lo = 0 then
      match cont input with
      | some caps => some ((nm, "") :: caps)
      | none => none
    else none
  | k + 1 =>
    if k + 1 < lo then none
    else
      match cont (input.drop (k + 1)) with
      | some caps => some ((nm, String.mk (input.take (k + 1))) :: caps)
      | none => tryGrp nm lo cont input k

/-- A named greedy repetition `(?P<nm>[class]{lo,hi})`: start from the
longest class-conforming prefix (capped at `hi`) and backtrack. -/
def varGrp (nm : String) (p : Char → Bool) (lo hi : Nat) (cont : List Char → Option Dict)
    (input : List Char) : Option Dict :=
  tryGrp nm lo cont input (maxTake p hi input)

/-- A named fixed-width group. -/
def fixedGrp (nm : String) (ps : List (Char → Bool)) (cont : List Char → Option Dict)
    (input : List Char) : Option Dict :=
  match matchFixed ps input with
  | some (cs, rest) =>
    match cont rest with
    | some caps => some ((nm, String.mk cs) :: caps)
    | none => none
  | none => none

/-! ## Character classes of the track grammars -/

def pNotCaret (c : Char) : Bool := c != '^'
def pAddr (c : Char) : Bool := c != '^' && c != '?'
def pNotEq (c : Char) : Bool := c != '='
def pUpper (c : Char) : Bool := c.isUpper
def pDigit (c : Char) : Bool := c.isDigit
def p6 (c : Char) : Bool := c == '6'
def pPostal (c : Char) : Bool := c == ' ' || c.isDigit || c.isUpper
def pNumSp (c : Char) : Bool := c == ' ' || c.isDigit
def pAlphaSp (c : Char) : Bool := c == ' ' || c.isUpper
def pSex (c : Char) : Bool := c == '1' || c == '2'
def pAny (c : Char) : Bool := c != '\n'

/-! ## `_track1_std`:
`%(?P<state>[A-Z]{2})(?P<city>[^\^]{0,13})\^?(?P<name>[^\^]{0,35})\^?(?P<address>[^\^^\?]*)\^?\?.*` -/

def t1_sep3 : List Char → Option Dict := optLit '^' endQ
def t1_address (input : List Char) : Option Dict :=
  varGrp "address" pAddr 0 input.length t1_sep3 input
def t1_sep2 : List Char → Option Dict := optLit '^' t1_address
def t1_name : List Char → Option Dict := varGrp "name" pNotCaret 0 35 t1_sep2
def t1_sep1 : List Char → Option Dict := optLit '^' t1_name
def t1_city : List Char → Option Dict := varGrp "city" pNotCaret 0 13 t1_sep1

/-- `_track1_std.match` on a raw track string. -/
def track1Match (t : String) : Option Dict :=
  match t.data with
  | '%' :: rest => fixedGrp "state" [pUpper, pUpper] t1_city rest
  | _ => none

/-! ## `_track2_std`:
`;(?P<iin>6[0-9]{5})(?P<dlid>[^=]{0,13})=?(?P<expiration>[0-9]{4})(?P<birthdate>[0-9]{8})(?P<dlid_over>[^=]{0,5})\?.*` -/

def t2_over : List Char → Option Dict := varGrp "dlid_over" pNotEq 0 5 endQ
def t2_bd : List Char → Option Dict := fixedGrp "birthdate" (List.replicate 8 pDigit) t2_over
def t2_exp : List Char → Option Dict := fixedGrp "expiration" (List.replicate 4 pDigit) t2_bd
def t2_eq : List Char → Option Dict := optLit '=' t2_exp
def t2_dlid : List Char → Option Dict := varGrp "dlid" pNotEq 0 13 t2_eq

/-- `_track2_std.match` on a raw track string. -/
def track2Match (t : String) : Option Dict :=
  match t.data with
  | ';' :: rest => fixedGrp "iin" (p6 :: List.replicate 5 pDigit) t2_dlid rest
  | _ => none

/-! ## `_track3_std`:
`#(?P<cds_version>[0-9])(?P<jurisdiction_version>[0-9])(?P<postal_code>[ 0-9A-Z]{11})(?P<class>[ 0-9A-Z]{2})(?P<restrictions>[ 0-9A-Z]{10})(?P<endorsements>[ 0-9A-Z]{4})(?P<sex>[12])(?P<height>[ 0-9]{3})(?P<weight>[ 0-9]{3})(?P<hair_color>[ A-Z]{3})(?P<eye_color>[ A-Z]{3})(?P<discretionary>.{37})\?.*` -/

def t3_disc : List Char → Option Dict := fixedGrp "discretionary" (List.replicate 37 pAny) endQ
def t3_eye : List Char → Option Dict := fixedGrp "eye_color" (List.replicate 3 pAlphaSp) t3_disc
def t3_hair : List Char → Option Dict := fixedGrp "hair_color" (List.replicate 3 pAlphaSp) t3_eye
def t3_weight : List Char → Option Dict := fixedGrp "weight" (List.replicate 3 pNumSp) t3_hair
def t3_height : List Char → Option Dict := fixedGrp "height" (List.replicate 3 pNumSp) t3_weight
def t3_sex : List Char → Option Dict := fixedGrp "sex" [pSex] t3_height
def t3_endorse : List Char → Option Dict := fixedGrp "endorsements" (List.replicate 4 pPostal) t3_sex
def t3_restrict : List Char → Option Dict := fixedGrp "restrictions" (List.replicate 10 pPostal) t3_endorse
def t3_class : List Char → Option Dict := fixedGrp "class" (List.replicate 2 pPostal) t3_restrict
def t3_postal : List Char → Option Dict := fixedGrp "postal_code" (List.replicate 11 pPostal) t3_class
def t3_juris : List Char → Option Dict := fixedGrp "jurisdiction_version" [pDigit] t3_postal

/-- `_track3_std.match` on a raw track string. -/
def track3Match (t : String) : Option Dict :=
  match t.data with
  | '#' :: rest => fixedGrp "cds_version" [pDigit] t3_juris rest
  | _ => none

/-! ## `_track_re` and `split_tracks` -/

/-- One group `[^\?]*\?` of `_track_re`: consume up to and including
the first `?`, returning the consumed track and the remainder. -/
def takeTrack : List Char → Option (List Char × List Char)
  | [] => none
  | c :: rest =>
    if c = '?' then some ([c], rest)
    else
      match takeTrack rest with
      | some (t, r) => some (c :: t, r)
      | none => none

/-- `License.split_tracks`: match `_track_re` (three `[^\?]*\?` groups
anchored at the start; anything after the third `?` is ignored). -/
def splitTracks (s : String) : Option (String × String × String) :=
  match takeTrack s.data with
  | none => none
  | some (t1, r1) =>
    match takeTrack r1 with
    | none => none
    | some (t2, r2) =>
      match takeTrack r2 with
      | none => none
      | some (t3, _) => some (String.mk t1, String.mk t2, String.mk t3)

/-! ## Normalization -/

/-- Python `s.rstrip('$')`. -/
def rstripDollar (s : String) : String :=
  String.mk ((s.data.reverse.dropWhile (fun c => c == '$')).reverse)

/-- Worker for Python `s.split('$')`: `acc` holds the current component
reversed. -/
def splitDollarAux : List Char → List Char → List String
  | acc, [] => [String.mk acc.reverse]
  | acc, c :: rest =>
    if c = '$' then String.mk acc.reverse :: splitDollarAux [] rest
    else splitDollarAux (c :: acc) rest

/-- Python `s.split('$')`. -/
def splitDollar (s : String) : List String := splitDollarAux [] s.data

/-- The dict produced by the success branch of `License.normalize`:
update with `first_name`/`middle_name`/`last_name` and delete `name`. -/
def normOutput (values : Dict) (l f m : String) : Dict :=
  derase (dinsert (dinsert (dinsert values "first_name" f) "middle_name" m) "last_name" l) "name"

/-- `License.normalize`: split the name field `last$first$middle` after
stripping trailing `$`.  Unpacking into three variables raises
`ValueError` when the split does not have exactly three parts. -/
def normalize (values : Dict) : Except PyErr Dict :=
  match dlookup values "name" with
  | none => .error .keyError
  | some nm =>
    match splitDollar (rstripDollar nm) with
    | [l, f, m] => .ok (normOutput values l f m)
    | _ => .error .valueError

/-- The re-encoded Ohio dlid: `chr(64+int(d[0:2])) + chr(64+int(d[2:4])) + d[4:]`. -/
def ohDlid (d1 d2 d3 d4 : Char) (suffix : String) : String :=
  String.mk [Char.ofNat (64 + (10 * digitVal d1 + digitVal d2)),
             Char.ofNat (64 + (10 * digitVal d3 + digitVal d4))] ++ suffix

/-- `License_OH.normalize`: base normalization, then convert the first
four digits of `dlid` to an alpha pair. -/
def normalize_OH (values : Dict) : Except PyErr Dict :=
  match normalize values with
  | .error e => .error e
  | .ok v =>
    match dlookup v "dlid" with
    | none => .error .keyError
    | some dlid =>
      match pyInt (pySlice dlid 0 2), pyInt (pySlice dlid 2 4) with
      | some c1, some c2 =>
        .ok (dinsert v "dlid"
          (String.mk [Char.ofNat (64 + c1), Char.ofNat (64 + c2)] ++ pySliceFrom dlid 4))
      | _, _ => .error .valueError

/-- `License.parse_discretionary`: identity stub. -/
def parse_discretionary (values : Dict) : Dict := values

/-! ## Pipeline -/

/-- `License.parse_aamva` with the normalizer of the dispatched class:
split tracks, match the three grammars, merge the group dicts, then
normalize and parse the discretionary field. -/
def parse_aamva (norm : Dict → Except PyErr Dict) (s : String) : Except PyErr Dict :=
  match splitTracks s with
  | none => .error (.parseError ("Does not appear to be an AAMVA string: " ++ s))
  | some (t1, t2, t3) =>
    match track1Match t1 with
    | none => .error (.parseError ("Could not parse track 1: " ++ t1))
    | some c1 =>
      match track2Match t2 with
      | none => .error (.parseError ("Could not parse track 2: " ++ t2))
      | some c2 =>
        match track3Match t3 with
        | none => .error (.parseError ("Could not parse track 3: " ++ t3))
        | some c3 =>
          match norm (updateCaps (updateCaps (updateCaps [] c1) c2) c3) with
          | .ok v => .ok (parse_discretionary v)
          | .error e => .error e

/-- `License_OH.statelist`. -/
def statelist_OH : List String := ["OH"]

/-- `License.parse_string`, the cooked-data stub: the source line
`raise NotImplemented('Cooked data input')` calls the non-callable
`NotImplemented` singleton, so Python raises a `TypeError`. -/
def parse_string (_ : String) : Except PyErr Dict := .error .typeError

/-- Dispatch of `License.from_string` for `%` strings: `string[1:3]` is
checked against each subclass's `statelist` (only `License_OH`); the
fallback is the base class. -/
def aamva_dispatch (s : String) : Except PyErr Dict :=
  if pySlice s 1 3 ∈ statelist_OH then parse_aamva normalize_OH s
  else parse_aamva normalize s

/-- `License.from_string`, the decode entry point.  `string[0]` on an
empty string raises `IndexError`.  For non-`%` input no subclass has a
`string_match` attribute (the probe's `AttributeError` is swallowed), so
the base class runs `parse_string`. -/
def from_string (s : String) : Except PyErr Dict :=
  match s.data with
  | [] => .error .indexError
  | c :: _ =>
    if c = '%' then aamva_dispatch s
    else parse_string s

/-- Convenience projection: a named field of a successful decode. -/
def decodeField (s k : String) : Option String :=
  match from_string s with
  | .ok v => dlookup v k
  | .error _ => none

/-- Holds when the decode of `s` fails with the module's `ParseError`. -/
def failsWithParseError (s : String) : Bool :=
  match from_string s with
  | .error (.parseError _) => true
  | _ => false

/-- The group names of the three track regexes: the keys of the raw
extracted field map. -/
def extractedKeys : List String :=
  ["state", "city", "name", "address",
   "iin", "dlid", "expiration", "birthdate", "dlid_over",
   "cds_version", "jurisdiction_version", "postal_code", "class", "restrictions",
   "endorsements", "sex", "height", "weight", "hair_color", "eye_color", "discretionary"]

/-! ## Concrete test inputs -/

/-- Track 1 of a minimal well-formed California swipe. -/
def caTrack1 : String := "%CASACRAMENTO^DOE$JOHN$MICHAEL$^123 MAIN ST^?"

/-- Track 2 with a numeric dlid. -/
def caTrack2 : String := ";" ++ "636014" ++ "123456789" ++ "=" ++ "1205" ++ "19800101" ++ "1234A" ++ "?"

/-- A 37-character discretionary payload. -/
def disc37 : String := "ABCDEFGHIJKLMNOPQRSTUVWXYZ0123456789X"

/-- A well-formed track 3. -/
def caTrack3 : String :=
  "#" ++ "1" ++ "2" ++ "95814      " ++ "C " ++ "          " ++ "    " ++ "1" ++ "510" ++
    "180" ++ "BRO" ++ "BLU" ++ disc37 ++ "?"

/-- A full well-formed California swipe string. -/
def caStr : String := caTrack1 ++ caTrack2 ++ caTrack3

/-- Track 1 of a well-formed Ohio swipe. -/
def ohTrack1 : String := "%OHCOLUMBUS^DOE$JANE$ANN$^44 HIGH ST^?"

/-- Track 2 with Ohio's digit-encoded dlid `0102ABCDE`. -/
def ohTrack2 : String := ";" ++ "636023" ++ "0102ABCDE" ++ "=" ++ "1106" ++ "19750315" ++ "?"

/-- A full well-formed Ohio swipe string. -/
def ohStr : String := ohTrack1 ++ ohTrack2 ++ caTrack3

/-- A swipe string whose name field has only two `$`-separated parts. -/
def badNameStr : String := "%CACITY^DOE$JOHN^ADDR^?" ++ caTrack2 ++ caTrack3

/-- A swipe string with a valid track 1 but a track-2 IIN starting with `7`. -/
def badIinStr : String := caTrack1 ++ ";7?" ++ "x?"

/-- The decoded record of `caStr`, in the insertion order the pipeline
produces. -/
def caDict : Dict :=
  [("state", "CA"), ("city", "SACRAMENTO"), ("address", "123 MAIN ST"),
   ("iin", "636014"), ("dlid", "123456789"), ("expiration", "1205"),
   ("birthdate", "19800101"), ("dlid_over", "1234A"),
   ("cds_version", "1"), ("jurisdiction_version", "2"), ("postal_code", "95814      "),
   ("class", "C "), ("restrictions", "          "), ("endorsements", "    "),
   ("sex", "1"), ("height", "510"), ("weight", "180"),
   ("hair_color", "BRO"), ("eye_color", "BLU"),
   ("discretionary", "ABCDEFGHIJKLMNOPQRSTUVWXYZ0123456789X"),
   ("first_name", "JOHN"), ("middle_name", "MICHAEL"), ("last_name", "DOE")]

/-! ## Basic String and Dict lemmas -/

lemma data_append (a b : String) : (a ++ b).data = a.data ++ b.data := by
  cases a; cases b; rfl

lemma mk_data (s : String) : String.mk s.data = s := rfl

lemma dlookup_dinsert_self (d : Dict) (k v : String) :
    dlookup (dinsert d k v) k = some v := by
  induction d with
  | nil => simp [dinsert, dlookup]
  | cons hd tl ih =>
    obtain ⟨k0, v0⟩ := hd
    by_cases h : k0 = k
    · subst h
      simp [dinsert, dlookup]
    · simp [dinsert, dlookup, h, ih]

lemma dlookup_dinsert_ne (d : Dict) (k k' v : String) (h : k' ≠ k) :
    dlookup (dinsert d k' v) k = dlookup d k := by
  induction d with
  | nil => simp [dinsert, dlookup, h]
  | cons hd tl ih =>
    obtain ⟨k0, v0⟩ := hd
    by_cases h0 : k0 = k'
    · subst h0
      simp [dinsert, dlookup, h]
    · by_cases h1 : k0 = k
      · subst h1
        simp [dinsert, dlookup, h0]
      · simp [dinsert, dlookup, h0, h1, ih]

lemma dlookup_derase_ne (d : Dict) (k k' : String) (h : k' ≠ k) :
    dlookup (derase d k') k = dlookup d k := by
  induction d with
  | nil => simp [derase, dlookup]
  | cons hd tl ih =>
    obtain ⟨k0, v0⟩ := hd
    by_cases h0 : k0 = k'
    · subst h0
      simp [derase, dlookup, h]
    · by_cases h1 : k0 = k
      · subst h1
        simp [derase, dlookup, h0]
      · simp [derase, dlookup, h0, h1, ih]

/-- Frame property of the normalization output: any key other than
`name` and the three installed name parts is untouched. -/
lemma dlookup_normOutput (values : Dict) (l f m k : String)
    (h1 : k ≠ "name") (h2 : k ≠ "first_name") (h3 : k ≠ "middle_name")
    (h4 : k ≠ "last_name") :
    dlookup (normOutput values l f m) k = dlookup values k := by
  unfold normOutput
  rw [dlookup_derase_ne _ _ _ (fun hh => h1 hh.symm),
    dlookup_dinsert_ne _ _ _ _ (fun hh => h4 hh.symm),
    dlookup_dinsert_ne _ _ _ _ (fun hh => h3 hh.symm),
    dlookup_dinsert_ne _ _ _ _ (fun hh => h2 hh.symm)]

/-! ## Name-field split lemmas -/

lemma dollar_data : ("$" : String).data = ['$'] := rfl

lemma dropWhile_append_all (p : Char → Bool) (a b : List Char) (h : a.all p = true) :
    (a ++ b).dropWhile p = b.dropWhile p := by
  induction a with
  | nil => simp
  | cons c t ih =>
    simp only [List.all_cons, Bool.and_eq_true] at h
    simp [List.dropWhile_cons, h.1, ih h.2]

lemma rstrip_data (core pad : List Char) (hpad : pad.all (fun c => c == '$') = true)
    (hlast : ∃ c t, core.reverse = c :: t ∧ (c == '$') = false) :
    ((core ++ pad).reverse.dropWhile (fun c => c == '$')).reverse = core := by
  obtain ⟨c, t, hrev, hc⟩ := hlast
  rw [List.reverse_append, dropWhile_append_all _ _ _ (by simpa using hpad), hrev,
    List.dropWhile_cons, hc]
  rw [if_neg (by simp)]
  rw [← hrev, List.reverse_reverse]

lemma rstripDollar_eq (core : String) (n : Nat)
    (hlast : ∃ c t, core.data.reverse = c :: t ∧ (c == '$') = false) :
    rstripDollar (core ++ String.mk (List.replicate n '$')) = core := by
  unfold rstripDollar
  rw [data_append]
  have h1 : (String.mk (List.replicate n '$')).data = List.replicate n '$' := rfl
  rw [h1, rstrip_data core.data _ (by simp) hlast, mk_data]

lemma last_exists (l f m : String) (hm0 : m.data ≠ [])
    (hm : m.data.all (fun c => c != '$') = true) :
    ∃ c t, (l ++ "$" ++ f ++ "$" ++ m).data.reverse = c :: t ∧ (c == '$') = false := by
  obtain ⟨c, t', hrev⟩ : ∃ c t', m.data.reverse = c :: t' := by
    cases hc : m.data.reverse with
    | nil => exact absurd (by simpa using hc) hm0
    | cons c t' => exact ⟨c, t', rfl⟩
  have hcmem : c ∈ m.data := by
    rw [← List.mem_reverse, hrev]
    exact List.mem_cons_self _ _
  refine ⟨c, t' ++ (l ++ "$" ++ f ++ "$").data.reverse, ?_, ?_⟩
  · rw [data_append, List.reverse_append, hrev, List.cons_append]
  · have hcd := List.all_eq_true.mp hm _ hcmem
    simpa using hcd

lemma splitDollarAux_sep (x : List Char) : ∀ acc rest : List Char,
    x.all (fun c => c != '$') = true →
    splitDollarAux acc (x ++ '$' :: rest) =
      String.mk (acc.reverse ++ x) :: splitDollarAux [] rest := by
  induction x with
  | nil =>
    intro acc rest _
    simp [splitDollarAux]
  | cons c t ih =>
    intro acc rest h
    simp only [List.all_cons, Bool.and_eq_true] at h
    have hc : ¬ c = '$' := by simpa using h.1
    simp only [List.cons_append, splitDollarAux, if_neg hc, List.append_eq]
    rw [ih (c :: acc) rest h.2]
    simp

lemma splitDollarAux_last (x : List Char) : ∀ acc : List Char,
    x.all (fun c => c != '$') = true →
    splitDollarAux acc x = [String.mk (acc.reverse ++ x)] := by
  induction x with
  | nil =>
    intro acc _
    simp [splitDollarAux]
  | cons c t ih =>
    intro acc h
    simp only [List.all_cons, Bool.and_eq_true] at h
    have hc : ¬ c = '$' := by simpa using h.1
    simp only [splitDollarAux, if_neg hc]
    rw [ih (c :: acc) h.2]
    simp

lemma splitDollar_three (l f m : String)
    (hl : l.data.all (fun c => c != '$') = true)
    (hf : f.data.all (fun c => c != '$') = true)
    (hm : m.data.all (fun c => c != '$') = true) :
    splitDollar (l ++ "$" ++ f ++ "$" ++ m) = [l, f, m] := by
  unfold splitDollar
  have hdata : (l ++ "$" ++ f ++ "$" ++ m).data
      = l.data ++ '$' :: (f.data ++ '$' :: m.data) := by
    simp [data_append, dollar_data]
  rw [hdata, splitDollarAux_sep _ _ _ hl, splitDollarAux_sep _ _ _ hf,
    splitDollarAux_last _ _ hm]
  simp [mk_data]

/-- The success case of `License.normalize`: a name field of the shape
`last$first$middle` followed by `n` trailing `$` characters, with a
non-empty middle part, is split into the three components. -/
lemma normalize_eq_ok (values : Dict) (l f m : String) (n : Nat)
    (hname : dlookup values "name" =
      some (l ++ "$" ++ f ++ "$" ++ m ++ String.mk (List.replicate n '$')))
    (hl : l.data.all (fun c => c != '$') = true)
    (hf : f.data.all (fun c => c != '$') = true)
    (hm : m.data.all (fun c => c != '$') = true)
    (hm0 : m.data ≠ []) :
    normalize values = .ok (normOutput values l f m) := by
  have hstrip := rstripDollar_eq (l ++ "$" ++ f ++ "$" ++ m) n (last_exists l f m hm0 hm)
  simp only [normalize, hname]
  rw [hstrip, splitDollar_three l f m hl hf hm]

/-! ## Pipeline unfolding lemmas -/

lemma mk_data_list (l : List Char) : (String.mk l).data = l := rfl

lemma from_string_cons (s : String) (c : Char) (l : List Char) (h : s.data = c :: l) :
    from_string s = if c = '%' then aamva_dispatch s else parse_string s := by
  unfold from_string
  rw [h]

lemma parse_aamva_split_fail (norm : Dict → Except PyErr Dict) (s : String)
    (h : splitTracks s = none) :
    parse_aamva norm s =
      .error (.parseError ("Does not appear to be an AAMVA string: " ++ s)) := by
  simp only [parse_aamva, h]

lemma parse_aamva_t2_fail (norm : Dict → Except PyErr Dict) (s t1 t2 t3 : String)
    (c1 : Dict) (hsp : splitTracks s = some (t1, t2, t3))
    (h1 : track1Match t1 = some c1) (h2 : track2Match t2 = none) :
    parse_aamva norm s = .error (.parseError ("Could not parse track 2: " ++ t2)) := by
  simp only [parse_aamva, hsp, h1, h2]

/-! ## Track-split lemmas -/

lemma takeTrack_none (l : List Char) (h : '?' ∉ l) : takeTrack l = none := by
  induction l with
  | nil => rfl
  | cons c t ih =>
    have hc : ¬ c = '?' := fun hh => h (hh ▸ List.mem_cons_self _ _)
    have ht : '?' ∉ t := fun hh => h (List.mem_cons_of_mem _ hh)
    simp [takeTrack, hc, ih ht]

lemma takeTrack_count (l : List Char) : ∀ t r, takeTrack l = some (t, r) →
    l.count '?' = r.count '?' + 1 := by
  induction l with
  | nil =>
    intro t r h
    simp [takeTrack] at h
  | cons c rest ih =>
    intro t r h
    by_cases hc : c = '?'
    · subst hc
      have heq : takeTrack ('?' :: rest) = some (['?'], rest) := by
        simp [takeTrack]
      rw [heq] at h
      have h2 : rest = r := congrArg Prod.snd (Option.some.inj h)
      rw [← h2]
      simp [List.count_cons]
    · simp only [takeTrack, if_neg hc] at h
      cases hrec : takeTrack rest with
      | none =>
        simp only [hrec] at h
        exact absurd h (by simp)
      | some pr =>
        obtain ⟨t', r'⟩ := pr
        simp only [hrec] at h
        have h2 : r' = r := congrArg Prod.snd (Option.some.inj h)
        rw [← h2]
        have hcc : ¬ ('?' : Char) = c := fun hh => hc hh.symm
        simp [List.count_cons, hcc, ih t' r' hrec]

lemma splitTracks_none_of_count (s : String) (h : s.data.count '?' < 3) :
    splitTracks s = none := by
  cases h1 : takeTrack s.data with
  | none => simp [splitTracks, h1]
  | some pr1 =>
    obtain ⟨t1, r1⟩ := pr1
    have c1 := takeTrack_count s.data t1 r1 h1
    cases h2 : takeTrack r1 with
    | none => simp [splitTracks, h1, h2]
    | some pr2 =>
      obtain ⟨t2, r2⟩ := pr2
      have c2 := takeTrack_count r1 t2 r2 h2
      have h3 : takeTrack r2 = none := by
        apply takeTrack_none
        intro hmem
        have hpos : 0 < r2.count '?' := List.count_pos_iff.mpr hmem
        omega
      simp [splitTracks, h1, h2, h3]

/-! ## Track-2 IIN lemma -/

lemma track2Match_not6 (t : String) (c : Char) (rest : List Char)
    (h : t.data = ';' :: c :: rest) (hc : c ≠ '6') : track2Match t = none := by
  simp only [track2Match, h]
  simp [fixedGrp, matchFixed, p6, hc]

/-! ## Two-digit `int()` lemma -/

lemma digit_not_space (c : Char) (h : c.isDigit = true) : (c == ' ') = false := by
  by_cases hc : c = ' '
  · subst hc
    exact absurd h (by decide)
  · simp [hc]

lemma pyInt_two (a b : Char) (ha : a.isDigit = true) (hb : b.isDigit = true) :
    pyInt (String.mk [a, b]) = some (10 * digitVal a + digitVal b) := by
  have ha' := digit_not_space a ha
  have hb' := digit_not_space b hb
  unfold pyInt
  simp [mk_data_list, List.dropWhile_cons, ha', hb', ha, hb, digitVal]

/-! ## Ohio normalization -/

lemma normalize_OH_eq (values : Dict) (l f m : String) (n : Nat)
    (hname : dlookup values "name" =
      some (l ++ "$" ++ f ++ "$" ++ m ++ String.mk (List.replicate n '$')))
    (hl : l.data.all (fun c => c != '$') = true)
    (hf : f.data.all (fun c => c != '$') = true)
    (hm : m.data.all (fun c => c != '$') = true)
    (hm0 : m.data ≠ [])
    (d1 d2 d3 d4 : Char) (suffix : String)
    (h1 : d1.isDigit = true) (h2 : d2.isDigit = true)
    (h3 : d3.isDigit = true) (h4 : d4.isDigit = true)
    (hdlid : dlookup values "dlid" = some (String.mk [d1, d2, d3, d4] ++ suffix)) :
    normalize_OH values =
      .ok (dinsert (normOutput values l f m) "dlid" (ohDlid d1 d2 d3 d4 suffix)) := by
  have hbase := normalize_eq_ok values l f m n hname hl hf hm hm0
  have hfr : dlookup (normOutput values l f m) "dlid" =
      some (String.mk [d1, d2, d3, d4] ++ suffix) := by
    rw [dlookup_normOutput values l f m "dlid" (by decide) (by decide) (by decide) (by decide),
      hdlid]
  have hdata : (String.mk [d1, d2, d3, d4] ++ suffix).data
      = d1 :: d2 :: d3 :: d4 :: suffix.data := by
    rw [data_append]
    rfl
  have hs1 : pySlice (String.mk [d1, d2, d3, d4] ++ suffix) 0 2 = String.mk [d1, d2] := by
    simp [pySlice, hdata]
  have hs2 : pySlice (String.mk [d1, d2, d3, d4] ++ suffix) 2 4 = String.mk [d3, d4] := by
    simp [pySlice, hdata]
  have hs3 : pySliceFrom (String.mk [d1, d2, d3, d4] ++ suffix) 4 = suffix := by
    simp [pySliceFrom, hdata, mk_data]
  simp only [normalize_OH, hbase, hfr, hs1, hs2, pyInt_two d1 d2 h1 h2,
    pyInt_two d3 d4 h3 h4, hs3]
  rfl

/-! ## Track shape lemmas -/

/-- A returned track: zero or more non-`?` characters followed by a
single terminating `?`. -/
def isTrackShape : List Char → Bool
  | [] => false
  | [c] => c == '?'
  | c :: rest => (c != '?') && isTrackShape rest

/-- `startsList a b` holds when `a` is a leading run of `b`. -/
def startsList : List Char → List Char → Bool
  | [], _ => true
  | _ :: _, [] => false
  | a :: as, b :: bs => (a == b) && startsList as bs

lemma startsList_append (a b : List Char) : startsList a (a ++ b) = true := by
  induction a with
  | nil => rfl
  | cons c t ih => simp [startsList, ih]

lemma takeTrack_shape (l : List Char) : ∀ t r, takeTrack l = some (t, r) →
    isTrackShape t = true ∧ l = t ++ r := by
  induction l with
  | nil =>
    intro t r h
    simp [takeTrack] at h
  | cons c rest ih =>
    intro t r h
    by_cases hc : c = '?'
    · subst hc
      have heq : takeTrack ('?' :: rest) = some (['?'], rest) := by
        simp [takeTrack]
      rw [heq] at h
      have hpair := Option.some.inj h
      have h1 : ['?'] = t := congrArg Prod.fst hpair
      have h2 : rest = r := congrArg Prod.snd hpair
      rw [← h1, ← h2]
      exact ⟨rfl, rfl⟩
    · simp only [takeTrack, if_neg hc] at h
      cases hrec : takeTrack rest with
      | none =>
        simp only [hrec] at h
        exact absurd h (by simp)
      | some pr =>
        obtain ⟨t', r'⟩ := pr
        simp only [hrec] at h
        have hpair := Option.some.inj h
        have h1 : c :: t' = t := congrArg Prod.fst hpair
        have h2 : r' = r := congrArg Prod.snd hpair
        obtain ⟨ihs, ihe⟩ := ih t' r' hrec
        rw [← h1, ← h2]
        constructor
        · cases t' with
          | nil => exact absurd ihs (by simp [isTrackShape])
          | cons d t'' =>
            simp only [isTrackShape, Bool.and_eq_true]
            exact ⟨by simpa using hc, ihs⟩
        · rw [ihe]
          rfl

/-! ## Key uniqueness lemmas -/

lemma dlookup_not_mem (d : Dict) (k : String) (h : k ∉ d.map Prod.fst) :
    dlookup d k = none := by
  induction d with
  | nil => rfl
  | cons hd tl ih =>
    obtain ⟨k0, v0⟩ := hd
    simp only [List.map_cons, List.mem_cons] at h
    push_neg at h
    have hne : ¬ k0 = k := fun hh => h.1 hh.symm
    simp [dlookup, hne, ih h.2]

lemma dlookup_derase_self (d : Dict) (k : String) (hnd : (d.map Prod.fst).Nodup) :
    dlookup (derase d k) k = none := by
  induction d with
  | nil => rfl
  | cons hd tl ih =>
    obtain ⟨k0, v0⟩ := hd
    simp only [List.map_cons, List.nodup_cons] at hnd
    by_cases h0 : k0 = k
    · subst h0
      simp only [derase, if_pos rfl]
      exact dlookup_not_mem tl k0 hnd.1
    · simp [derase, h0, dlookup, ih hnd.2]

lemma keys_dinsert (d : Dict) (k v : String) :
    (dinsert d k v).map Prod.fst =
      if k ∈ d.map Prod.fst then d.map Prod.fst else d.map Prod.fst ++ [k] := by
  induction d with
  | nil => simp [dinsert]
  | cons hd tl ih =>
    obtain ⟨k0, v0⟩ := hd
    by_cases h0 : k0 = k
    · subst h0
      simp [dinsert]
    · have hne : ¬ k = k0 := fun hh => h0 hh.symm
      simp only [dinsert, if_neg h0, List.map_cons, ih, List.mem_cons]
      by_cases hk : k ∈ tl.map Prod.fst
      · simp [hk, hne]
      · simp [hk, hne]

lemma nodup_dinsert (d : Dict) (k v : String) (h : (d.map Prod.fst).Nodup) :
    ((dinsert d k v).map Prod.fst).Nodup := by
  rw [keys_dinsert]
  by_cases hk : k ∈ d.map Prod.fst
  · simp [hk, h]
  · rw [if_neg hk]
    rw [List.nodup_append]
    refine ⟨h, by simp, ?_⟩
    intro a ha hak
    simp only [List.mem_singleton] at hak
    subst hak
    exact hk ha

lemma dlookup_normOutput_name (values : Dict) (l f m : String)
    (hnd : (values.map Prod.fst).Nodup) :
    dlookup (normOutput values l f m) "name" = none := by
  unfold normOutput
  exact dlookup_derase_self _ _
    (nodup_dinsert _ _ _ (nodup_dinsert _ _ _ (nodup_dinsert _ _ _ hnd)))

/-! ## Installed name parts -/

lemma dlookup_normOutput_last (values : Dict) (l f m : String) :
    dlookup (normOutput values l f m) "last_name" = some l := by
  unfold normOutput
  rw [dlookup_derase_ne _ _ _ (by decide), dlookup_dinsert_self]

lemma dlookup_normOutput_middle (values : Dict) (l f m : String) :
    dlookup (normOutput values l f m) "middle_name" = some m := by
  unfold normOutput
  rw [dlookup_derase_ne _ _ _ (by decide), dlookup_dinsert_ne _ _ _ _ (by decide),
    dlookup_dinsert_self]

lemma dlookup_normOutput_first (values : Dict) (l f m : String) :
    dlookup (normOutput values l f m) "first_name" = some f := by
  unfold normOutput
  rw [dlookup_derase_ne _ _ _ (by decide), dlookup_dinsert_ne _ _ _ _ (by decide),
    dlookup_dinsert_ne _ _ _ _ (by decide), dlookup_dinsert_self]

/-! ## Normalize inversion and extracted keys -/

lemma normalize_ok_inv (values v' : Dict) (h : normalize values = .ok v') :
    ∃ l f m, v' = normOutput values l f m := by
  unfold normalize at h
  split at h
  · exact absurd h (by simp)
  · split at h
    · rename_i l f m heq
      exact ⟨l, f, m, (Except.ok.inj h).symm⟩
    · exact absurd h (by simp)

lemma mem_extracted_ne (k : String) (hk : k ∈ extractedKeys) :
    k ≠ "first_name" ∧ k ≠ "middle_name" ∧ k ≠ "last_name" := by
  fin_cases hk <;> exact ⟨by decide, by decide, by decide⟩

/-! ## Claim theorems -/

/-- C1: for every field map whose raw track-1 `name` value has the form
`last$first$middle` followed by trailing `$` padding (components free of
`$`, middle non-empty, keys unique as in a Python dict), the base
normalizer succeeds, removes the `name` key and installs `last_name`,
`first_name`, `middle_name` equal to the three components; in
particular the decode of the full swipe `caStr`, whose name subfield is
`DOE$JOHN$MICHAEL$`, yields last DOE, first JOHN, middle MICHAEL. -/
theorem C1_name_split :
    (∀ (values : Dict) (l f m : String) (n : Nat),
      (values.map Prod.fst).Nodup →
      dlookup values "name" =
        some (l ++ "$" ++ f ++ "$" ++ m ++ String.mk (List.replicate n '$')) →
      l.data.all (fun c => c != '$') = true →
      f.data.all (fun c => c != '$') = true →
      m.data.all (fun c => c != '$') = true →
      m.data ≠ [] →
      normalize values = .ok (normOutput values l f m) ∧
      dlookup (normOutput values l f m) "last_name" = some l ∧
      dlookup (normOutput values l f m) "first_name" = some f ∧
      dlookup (normOutput values l f m) "middle_name" = some m ∧
      dlookup (normOutput values l f m) "name" = none) ∧
    decodeField caStr "last_name" = some "DOE" ∧
    decodeField caStr "first_name" = some "JOHN" ∧
    decodeField caStr "middle_name" = some "MICHAEL" ∧
    decodeField caStr "name" = none := by
  refine ⟨?_, by rfl, by rfl, by rfl, by rfl⟩
  intro values l f m n hnd hname hl hf hm hm0
  exact ⟨normalize_eq_ok values l f m n hname hl hf hm hm0,
    dlookup_normOutput_last values l f m,
    dlookup_normOutput_first values l f m,
    dlookup_normOutput_middle values l f m,
    dlookup_normOutput_name values l f m hnd⟩

/-- Witness for C1 at the name field `DOE$JOHN$MICHAEL$`. -/
theorem C1_name_split_witness :
    normalize [("name", "DOE$JOHN$MICHAEL$")] =
      .ok (normOutput [("name", "DOE$JOHN$MICHAEL$")] "DOE" "JOHN" "MICHAEL") ∧
    dlookup (normOutput [("name", "DOE$JOHN$MICHAEL$")] "DOE" "JOHN" "MICHAEL") "last_name" =
      some "DOE" ∧
    dlookup (normOutput [("name", "DOE$JOHN$MICHAEL$")] "DOE" "JOHN" "MICHAEL") "first_name" =
      some "JOHN" ∧
    dlookup (normOutput [("name", "DOE$JOHN$MICHAEL$")] "DOE" "JOHN" "MICHAEL") "middle_name" =
      some "MICHAEL" ∧
    dlookup (normOutput [("name", "DOE$JOHN$MICHAEL$")] "DOE" "JOHN" "MICHAEL") "name" = none :=
  C1_name_split.1 [("name", "DOE$JOHN$MICHAEL$")] "DOE" "JOHN" "MICHAEL" 1
    (by decide) (by decide) (by decide) (by decide) (by decide) (by decide)

/-- C3 (code bug): decode of input not starting with `%` reaches
`parse_string`, whose `raise NotImplemented('Cooked data input')` calls
the non-callable `NotImplemented` singleton; Python therefore raises a
`TypeError`, not the documented unsupported-format error, and not a
`ParseError`. -/
theorem C3_cooked_path_typeerror :
    from_string "A" = Except.error PyErr.typeError ∧
    from_string "no-aamva data" = Except.error PyErr.typeError ∧
    failsWithParseError "A" = false :=
  ⟨rfl, rfl, rfl⟩

/-- C5 counterexample: the swipe `badNameStr`, whose name field is
`DOE$JOHN` (two parts), makes decode fail with `ValueError` from the
tuple unpacking in `normalize`, not with the module's `ParseError`. -/
theorem C5_counterexample :
    failsWithParseError badNameStr = false ∧
    from_string badNameStr = Except.error PyErr.valueError :=
  ⟨rfl, rfl⟩

/-- C5 (amended): when the extracted `name` field, after stripping
trailing `$`, does not split into exactly three parts, normalization
fails with a `ValueError` (tuple-unpacking error), not a `FormatError`. -/
theorem C5_name_split_valueerror (values : Dict) (nm : String)
    (hname : dlookup values "name" = some nm)
    (hlen : (splitDollar (rstripDollar nm)).length ≠ 3) :
    normalize values = .error .valueError := by
  simp only [normalize, hname]
  split
  · rename_i l f m heq
    rw [heq] at hlen
    simp at hlen
  · rfl

/-- Witness for the amended C5 at a two-part name field. -/
theorem C5_name_split_valueerror_witness :
    dlookup [("name", "DOE$JOHN")] "name" = some "DOE$JOHN" ∧
    (splitDollar (rstripDollar "DOE$JOHN")).length ≠ 3 ∧
    normalize [("name", "DOE$JOHN")] = Except.error PyErr.valueError :=
  ⟨by decide, by decide,
    C5_name_split_valueerror [("name", "DOE$JOHN")] "DOE$JOHN" (by decide) (by decide)⟩

/-- C7: the base normalizer changes no extracted field other than
`name` (and the discretionary hook is the identity); concretely, the
decode of the California swipe `caStr` leaves `dlid` numeric and the
37-character discretionary field verbatim. -/
theorem C7_field_passthrough :
    (∀ (values v' : Dict) (k : String), normalize values = .ok v' →
      k ∈ extractedKeys → k ≠ "name" → dlookup v' k = dlookup values k) ∧
    (∀ v : Dict, parse_discretionary v = v) ∧
    decodeField caStr "dlid" = some "123456789" ∧
    decodeField caStr "discretionary" = some disc37 ∧
    decodeField caStr "state" = some "CA" ∧
    decodeField caStr "iin" = some "636014" := by
  refine ⟨?_, fun v => rfl, by rfl, by rfl, by rfl, by rfl⟩
  intro values v' k h hk hk0
  obtain ⟨l, f, m, rfl⟩ := normalize_ok_inv values v' h
  obtain ⟨n1, n2, n3⟩ := mem_extracted_ne k hk
  exact dlookup_normOutput values l f m k hk0 n1 n2 n3

/-- Witness for C7 at the key `dlid`. -/
theorem C7_field_passthrough_witness :
    normalize [("name", "A$B$C"), ("dlid", "X7")] =
      Except.ok [("dlid", "X7"), ("first_name", "B"), ("middle_name", "C"), ("last_name", "A")] ∧
    dlookup [("dlid", "X7"), ("first_name", "B"), ("middle_name", "C"), ("last_name", "A")]
        "dlid" =
      dlookup [("name", "A$B$C"), ("dlid", "X7")] "dlid" :=
  ⟨by rfl, C7_field_passthrough.1 _ _ "dlid" (by rfl) (by decide) (by decide)⟩

/-- C8 counterexample: on input `???X` the track split succeeds with
three tracks whose bodies before the delimiter are empty, and whose
concatenation is not the whole input (the trailing `X` is dropped);
both the non-emptiness and the no-trailing-slop parts of the claim
fail. -/
theorem C8_counterexample :
    splitTracks "???X" = some ("?", "?", "?") ∧
    ¬ (("?" : String) ++ "?" ++ "?" = "???X") ∧
    ("?" : String).data.dropLast = [] :=
  ⟨rfl, by decide, rfl⟩

/-- C8 (amended): every successful track split returns three tracks,
each consisting of non-`?` characters (possibly none) followed by a
terminating `?`, and their concatenation is a leading run of the input
(trailing content after the third `?` is ignored). -/
theorem C8_track_shape (s t1 t2 t3 : String) (h : splitTracks s = some (t1, t2, t3)) :
    isTrackShape t1.data = true ∧ isTrackShape t2.data = true ∧ isTrackShape t3.data = true ∧
    startsList (t1.data ++ t2.data ++ t3.data) s.data = true := by
  unfold splitTracks at h
  cases h1 : takeTrack s.data with
  | none =>
    simp only [h1] at h
    exact Option.noConfusion h
  | some pr1 =>
    obtain ⟨tt1, r1⟩ := pr1
    simp only [h1] at h
    cases h2 : takeTrack r1 with
    | none =>
      simp only [h2] at h
      exact Option.noConfusion h
    | some pr2 =>
      obtain ⟨tt2, r2⟩ := pr2
      simp only [h2] at h
      cases h3 : takeTrack r2 with
      | none =>
        simp only [h3] at h
        exact Option.noConfusion h
      | some pr3 =>
        obtain ⟨tt3, r3⟩ := pr3
        simp only [h3] at h
        have hpair := Option.some.inj h
        have e1 : String.mk tt1 = t1 := congrArg Prod.fst hpair
        have e2 : String.mk tt2 = t2 := congrArg (fun p => p.2.1) hpair
        have e3 : String.mk tt3 = t3 := congrArg (fun p => p.2.2) hpair
        obtain ⟨s1, q1⟩ := takeTrack_shape s.data tt1 r1 h1
        obtain ⟨s2, q2⟩ := takeTrack_shape r1 tt2 r2 h2
        obtain ⟨s3, q3⟩ := takeTrack_shape r2 tt3 r3 h3
        rw [← e1, ← e2, ← e3]
        simp only [mk_data_list]
        refine ⟨s1, s2, s3, ?_⟩
        rw [q1, q2, q3]
        have hassoc : tt1 ++ (tt2 ++ (tt3 ++ r3)) = (tt1 ++ tt2 ++ tt3) ++ r3 := by
          simp [List.append_assoc]
        rw [hassoc]
        exact startsList_append _ _

/-- Witness for the amended C8 on an input with trailing junk. -/
theorem C8_track_shape_witness :
    splitTracks "a?b?c?junk" = some ("a?", "b?", "c?") ∧
    (isTrackShape ("a?" : String).data = true ∧ isTrackShape ("b?" : String).data = true ∧
      isTrackShape ("c?" : String).data = true ∧
      startsList (("a?" : String).data ++ ("b?" : String).data ++ ("c?" : String).data)
        ("a?b?c?junk" : String).data = true) :=
  ⟨by rfl, C8_track_shape "a?b?c?junk" "a?" "b?" "c?" (by rfl)⟩

/-- C9: decode is a pure function of its input string; two decodes of
the same valid input produce structurally equal records. -/
theorem C9_decode_deterministic (s : String) (v1 v2 : Dict)
    (h1 : from_string s = .ok v1) (h2 : from_string s = .ok v2) : v1 = v2 := by
  rw [h1] at h2
  exact Except.ok.inj h2

/-- Witness for C9 at the valid swipe `caStr`. -/
theorem C9_decode_deterministic_witness :
    from_string caStr = Except.ok caDict ∧ caDict = caDict :=
  ⟨by rfl, C9_decode_deterministic caStr caDict caDict (by rfl) (by rfl)⟩

/-- C10: decode of the empty string fails with `IndexError` from
`string[0]`, not with the module's `ParseError` (and no
unsupported-format outcome is reached). -/
theorem C10_empty_input_indexerror :
    from_string "" = Except.error PyErr.indexError ∧
    failsWithParseError "" = false :=
  ⟨rfl, rfl⟩

/-- C2: for every field map whose name field is well-formed and whose
`dlid` starts with four digits, the Ohio normalizer performs the base
name split and then replaces the 4-digit dlid prefix `d1d2d3d4` by
`chr(64+int(d1d2))` and `chr(64+int(d3d4))`, leaving the suffix
untouched; in particular the full Ohio swipe `ohStr` with raw dlid
`0102ABCDE` decodes (dispatched by state `OH`) to dlid `ABABCDE`. -/
theorem C2_ohio_dlid :
    (∀ (values : Dict) (l f m : String) (n : Nat) (d1 d2 d3 d4 : Char) (suffix : String),
      dlookup values "name" =
        some (l ++ "$" ++ f ++ "$" ++ m ++ String.mk (List.replicate n '$')) →
      l.data.all (fun c => c != '$') = true →
      f.data.all (fun c => c != '$') = true →
      m.data.all (fun c => c != '$') = true →
      m.data ≠ [] →
      d1.isDigit = true → d2.isDigit = true → d3.isDigit = true → d4.isDigit = true →
      dlookup values "dlid" = some (String.mk [d1, d2, d3, d4] ++ suffix) →
      normalize_OH values =
        .ok (dinsert (normOutput values l f m) "dlid" (ohDlid d1 d2 d3 d4 suffix)) ∧
      dlookup (dinsert (normOutput values l f m) "dlid" (ohDlid d1 d2 d3 d4 suffix)) "dlid" =
        some (ohDlid d1 d2 d3 d4 suffix)) ∧
    pySlice ohStr 1 3 = "OH" ∧
    ohDlid '0' '1' '0' '2' "ABCDE" = "ABABCDE" ∧
    decodeField ohStr "dlid" = some "ABABCDE" := by
  refine ⟨?_, by rfl, by decide, by rfl⟩
  intro values l f m n d1 d2 d3 d4 suffix hname hl hf hm hm0 h1 h2 h3 h4 hdlid
  exact ⟨normalize_OH_eq values l f m n hname hl hf hm hm0 d1 d2 d3 d4 suffix h1 h2 h3 h4 hdlid,
    dlookup_dinsert_self _ _ _⟩

/-- Witness for C2 at raw dlid `0102ABCDE`. -/
theorem C2_ohio_dlid_witness :
    normalize_OH [("name", "DOE$JANE$ANN$"), ("dlid", "0102ABCDE")] =
      .ok (dinsert
        (normOutput [("name", "DOE$JANE$ANN$"), ("dlid", "0102ABCDE")] "DOE" "JANE" "ANN")
        "dlid" (ohDlid '0' '1' '0' '2' "ABCDE")) ∧
    dlookup (dinsert
        (normOutput [("name", "DOE$JANE$ANN$"), ("dlid", "0102ABCDE")] "DOE" "JANE" "ANN")
        "dlid" (ohDlid '0' '1' '0' '2' "ABCDE")) "dlid" =
      some (ohDlid '0' '1' '0' '2' "ABCDE") :=
  C2_ohio_dlid.1 [("name", "DOE$JANE$ANN$"), ("dlid", "0102ABCDE")] "DOE" "JANE" "ANN" 1
    '0' '1' '0' '2' "ABCDE" (by decide) (by decide) (by decide) (by decide) (by decide)
    (by decide) (by decide) (by decide) (by decide) (by decide)

/-- C4: decode of any input starting with `%` that contains fewer than
three `?` characters fails at the track-split stage with the module's
`ParseError`, whose message names the offending input. -/
theorem C4_split_error (s : String) (l : List Char)
    (hs : s.data = '%' :: l) (hcount : s.data.count '?' < 3) :
    from_string s =
      .error (.parseError ("Does not appear to be an AAMVA string: " ++ s)) := by
  rw [from_string_cons s '%' l hs, if_pos rfl]
  unfold aamva_dispatch
  have hn := splitTracks_none_of_count s hcount
  by_cases hm : pySlice s 1 3 ∈ statelist_OH
  · rw [if_pos hm]
    exact parse_aamva_split_fail _ _ hn
  · rw [if_neg hm]
    exact parse_aamva_split_fail _ _ hn

/-- Witness for C4 at an input with a single `?`. -/
theorem C4_split_error_witness :
    ("%AB?x" : String).data = '%' :: ("AB?x" : String).data ∧
    ("%AB?x" : String).data.count '?' < 3 ∧
    from_string "%AB?x" =
      .error (.parseError ("Does not appear to be an AAMVA string: " ++ "%AB?x")) :=
  ⟨by decide, by decide,
    C4_split_error "%AB?x" ("AB?x" : String).data (by decide) (by decide)⟩

/-- C6: if the track split succeeds and track 1 parses but track 2's
character after the leading `;` is not the digit `6`, decode fails with
the module's `ParseError` for the track-2 extraction stage, naming
track 2's raw content. -/
theorem C6_track2_iin_error (s t1 t2 t3 : String) (l rest : List Char) (c : Char) (c1 : Dict)
    (hs : s.data = '%' :: l)
    (hsp : splitTracks s = some (t1, t2, t3))
    (h1 : track1Match t1 = some c1)
    (ht2 : t2.data = ';' :: c :: rest)
    (hc : c ≠ '6') :
    from_string s = .error (.parseError ("Could not parse track 2: " ++ t2)) := by
  rw [from_string_cons s '%' l hs, if_pos rfl]
  unfold aamva_dispatch
  have h2 := track2Match_not6 t2 c rest ht2 hc
  by_cases hm : pySlice s 1 3 ∈ statelist_OH
  · rw [if_pos hm]
    exact parse_aamva_t2_fail _ _ _ _ _ _ hsp h1 h2
  · rw [if_neg hm]
    exact parse_aamva_t2_fail _ _ _ _ _ _ hsp h1 h2

/-- Witness for C6 at a track 2 starting with `;7`. -/
theorem C6_track2_iin_error_witness :
    splitTracks badIinStr = some (caTrack1, ";7?", "x?") ∧
    track1Match caTrack1 =
      some [("state", "CA"), ("city", "SACRAMENTO"), ("name", "DOE$JOHN$MICHAEL$"),
        ("address", "123 MAIN ST")] ∧
    (";7?" : String).data = ';' :: '7' :: ['?'] ∧
    from_string badIinStr = .error (.parseError ("Could not parse track 2: " ++ ";7?")) :=
  ⟨by decide, by decide, by decide,
    C6_track2_iin_error badIinStr caTrack1 ";7?" "x?"
      ("CASACRAMENTO^DOE$JOHN$MICHAEL$^123 MAIN ST^?;7?x?" : String).data ['?'] '7'
      [("state", "CA"), ("city", "SACRAMENTO"), ("name", "DOE$JOHN$MICHAEL$"),
        ("address", "123 MAIN ST")]
      (by decide) (by decide) (by decide) (by decide) (by decide)⟩

end AAMVA
